import Mathlib

/-!
Shallow embedding of the JOS-style kernel monitor (`kern/monitor.c`) and
verification of its specification.

Conventions of the embedding:
* Machine words (virtual addresses, page-table entries, saved registers) are
  `Nat`; the target is i386, so a word is 32 bits and `sizeof(uintptr_t) = 4`.
  Where C wraparound matters the reduction `% 2^32` is explicit.
* Memory is a word-indexed read capability `mem : Nat → Nat` mapping a byte
  address to the 32-bit word stored there (reads are 4-byte aligned in the
  source: `*(ebp + k)` on a `uint32_t *` reads byte address `ebp + 4*k`).
* `cprintf` calls are modelled structurally: each call site corresponds to one
  constructor of `OutEv` carrying exactly the arguments the format string
  consumes; the literal format strings are recorded in doc comments.
* Loops are modelled by structurally recursive functions over an explicit
  step-count (fuel) parameter so that all definitions evaluate inside the
  kernel; wrappers supply fuel that provably covers the source loop's actual
  iteration count, and lemmas are proved under a fuel-sufficiency bound.
-/

/-- The whitespace set of the tokenizer: `#define WHITESPACE "\t\r\n "`.
`strchr(WHITESPACE, c)` is non-null exactly when `c` is one of these four. -/
def isWS (c : Char) : Bool :=
  c = '\t' || c = '\r' || c = '\n' || c = ' '

/-- Reference splitter: the whitespace-separated non-empty tokens of a line,
in order, with no capacity bound.  Same scan structure as the source loop in
`runcmd` (gobble whitespace, then scan past the next token), minus the
`MAXARGS` capacity check.  Structural recursion on a fuel parameter; the
wrapper `wsplit` supplies fuel `l.length + 1`, which always suffices. -/
def wsplitF : Nat → List Char → List (List Char)
  | 0, _ => []
  | fuel + 1, l =>
    match l.dropWhile isWS with
    | [] => []
    | c :: t =>
      ((c :: t).takeWhile fun x => !isWS x) ::
        wsplitF fuel ((c :: t).dropWhile fun x => !isWS x)

/-- The whitespace-separated non-empty tokens of a line. -/
def wsplit (l : List Char) : List (List Char) := wsplitF (l.length + 1) l

/-- Error outcome of the tokenizer: `runcmd` aborts parsing with
`cprintf("Too many arguments (max %d)\n", MAXARGS)` and returns `0`. -/
inductive TokErr where
  | tooManyArguments
deriving DecidableEq

/-- The argument-parsing loop of `runcmd` (`kern/monitor.c`):

```
argc = 0; argv[argc] = 0;
while (1) {
  while (*buf && strchr(WHITESPACE, *buf)) *buf++ = 0;   -- gobble whitespace
  if (*buf == 0) break;
  if (argc == MAXARGS-1) { cprintf("Too many arguments (max %d)\n", MAXARGS); return 0; }
  argv[argc++] = buf;
  while (*buf && !strchr(WHITESPACE, *buf)) buf++;       -- scan past next arg
}
```

with `MAXARGS = 16`.  The capacity check fires when a 16th token is about to
be saved (`argc == 15`), aborting the whole line.  Tokens are in-place slices
of the buffer, modelled as the corresponding character lists.  Structural
recursion on fuel; the wrapper `runTok` supplies fuel `l.length + 1`. -/
def runTokF : Nat → List Char → Nat → Except TokErr (List (List Char))
  | 0, _, _ => .ok []
  | fuel + 1, l, argc =>
    match l.dropWhile isWS with
    | [] => .ok []
    | c :: t =>
      if argc = 15 then .error .tooManyArguments
      else
        match runTokF fuel ((c :: t).dropWhile fun x => !isWS x) (argc + 1) with
        | .error e => .error e
        | .ok rest => .ok (((c :: t).takeWhile fun x => !isWS x) :: rest)

/-- Tokenization of a command line as performed by `runcmd`, starting at
`argc = 0`. -/
def runTok (l : List Char) : Except TokErr (List (List Char)) :=
  runTokF (l.length + 1) l 0

/-- Hexadecimal digit test, as accepted by a base-16 `strtol` scan
(`0`–`9`, `a`–`f`, `A`–`F`; the first larger letter stops the scan). -/
def isHexDigit (c : Char) : Bool :=
  ('0' ≤ c && c ≤ '9') || ('a' ≤ c && c ≤ 'f') || ('A' ≤ c && c ≤ 'F')

/-- Value of a hexadecimal digit (`0` on non-digits, never reached on them). -/
def hexDigitVal (c : Char) : Nat :=
  if '0' ≤ c && c ≤ '9' then c.toNat - '0'.toNat
  else if 'a' ≤ c && c ≤ 'f' then c.toNat - 'a'.toNat + 10
  else if 'A' ≤ c && c ≤ 'F' then c.toNat - 'A'.toNat + 10
  else 0

/-- Modelled from the spec: the token parsing of the `strtol` collaborator
(`strtol(argv[i], &ptr, 16)` — the C library routine is not part of the
sources under verification).  Leading-whitespace skip of a base-16 `strtol`. -/
def skipStrtolWS (s : List Char) : List Char :=
  s.dropWhile fun c => c = ' ' || c = '\t'

/-- Modelled from the spec: optional sign of the `strtol` collaborator.
Returns (negated?, remainder). -/
def afterSign : List Char → Bool × List Char
  | '+' :: r => (false, r)
  | '-' :: r => (true, r)
  | r => (false, r)

/-- Modelled from the spec: the optional `0x`/`0X` marker a base-16 `strtol`
accepts before the digits. -/
def skipHexMark : List Char → List Char
  | '0' :: 'x' :: r => r
  | '0' :: 'X' :: r => r
  | r => r

/-- The run of hexadecimal digits a base-16 `strtol` actually consumes from a
token (after whitespace, sign and `0x` marker).  Empty exactly when the token
has no parsable hexadecimal numeral, in which case `strtol` returns `0`. -/
def hexDigitsOf (s : List Char) : List Char :=
  (skipHexMark (afterSign (skipStrtolWS s)).2).takeWhile isHexDigit

/-- Accumulated value of a digit run, as `strtol`'s `val = val * base + dig`
loop computes it (32-bit wraparound applied by the caller). -/
def hexVal (ds : List Char) : Nat :=
  ds.foldl (fun a c => 16 * a + hexDigitVal c) 0

/-- Modelled from the spec: `strtol(token, &ptr, 16)` cast to a 32-bit
address, as `mon_showva2pa` does with `(uintptr_t *)strtol(argv[i], &ptr, 16)`.
A token with no parsable hexadecimal numeral yields `0`; the stored end
pointer `ptr` is never examined by the caller and is not modelled. -/
def parseAddr (s : List Char) : Nat :=
  let v := hexVal (hexDigitsOf s) % 2 ^ 32
  if (afterSign (skipStrtolWS s)).1 then (2 ^ 32 - v) % 2 ^ 32 else v

/-- The physical-page record consulted through `page_lookup`: its physical
address (`page2pa(va_page)`) and reference count (`va_page->pp_ref`). -/
structure PageRec where
  pa : Nat
  ppRef : Nat
deriving DecidableEq

/-- Modelled from the spec: the read-only page-table collaborators consumed by
`mon_showva2pa` (`kern/pmap.c` is not part of the sources under verification):
`walkEntry va` is `pgdir_walk(kern_pgdir, va, 0)` — the page-table entry for
`va`, or absent; `lookup va` is `page_lookup(kern_pgdir, va, &entry)` — the
owning page record together with the PTE value it stores through `&entry`,
or absent. -/
structure PTState where
  walkEntry : Nat → Option Nat
  lookup : Nat → Option (PageRec × Nat)

/-- The `PTE_W` permission bit (x86 page-table entry bit 1). -/
def PTE_W : Nat := 2

/-- The `PTE_U` permission bit (x86 page-table entry bit 2). -/
def PTE_U : Nat := 4

/-- One page-table query issued by the inspector: a `pgdir_walk` with its
`create` argument, or a `page_lookup`. -/
inductive Query where
  | walk (va : Nat) (create : Bool)
  | lookup (va : Nat)
deriving DecidableEq

/-- Modelled from the spec: which queries may modify the page-table state.
`walkPageTable(..., create:false)` and `lookupOwningPage` are observational;
only a walk with `create` set could allocate a page-table page. -/
def mutatesTable : Query → Bool
  | .walk _ create => create
  | .lookup _ => false

/-- One `cprintf` event of the monitor, one constructor per call site:
* `vaUnmapped va` — `cprintf("VA: %x does not have a mapped physical page!\n", va)`
* `vaMapped va pa ppref w u` — `cprintf("VA: 0x%x, PA: 0x%x, pp_ref: %d, PTE_W: %d, PTE_U: %d\n", ...)`
* `atLeastOne` — `cprintf("At least one argument.\n")`
* `tooManyVa` — `cprintf("Too many arguments (max %d)\n", 2)`
* `btFrame ebp eip args` — `cprintf("ebp %08x eip %08x args %08x %08x %08x %08x %08x\n", ...)`
* `btSym file line namelen name plus` — the pair of calls `cprintf("%s:%d", eip_file, eip_line)`
  and `cprintf(": %.*s+%d\n", eip_fn_namelen, eip_fn_name, eip_fn_addr)`,
  which together render one `file:line: name+plus` line
* `helpLine name desc` — `cprintf("%s - %s\n", name, desc)` in `mon_help`
* `kerninfoReport ...` — the fixed block of lines `mon_kerninfo` prints; their
  contents are functions of the five link-time symbols carried here (no claim
  concerns their formatting)
* `unknownCmd name` — `cprintf("Unknown command '%s'\n", argv[0])`
* `tooManyArgsLine` — `cprintf("Too many arguments (max %d)\n", MAXARGS)` in `runcmd` -/
inductive OutEv where
  | vaUnmapped (va : Nat)
  | vaMapped (va pa ppref w u : Nat)
  | atLeastOne
  | tooManyVa
  | btFrame (ebp eip : Nat) (args : List Nat)
  | btSym (file : String) (line : Nat) (namelen : Nat) (name : String) (plus : Nat)
  | helpLine (name : List Char) (desc : String)
  | kerninfoReport (sstart entry etext edata send : Nat)
  | unknownCmd (name : List Char)
  | tooManyArgsLine
deriving DecidableEq

/-- The body of the range-walk loop of `mon_showva2pa` at one address:

```
entry = pgdir_walk(kern_pgdir, (void *)va, 0);
if (entry == NULL) { cprintf("VA: %x does not have a mapped physical page!\n", va); continue; }
va_page = page_lookup(kern_pgdir, (void *)va, &entry);
if (va_page == NULL) { cprintf("VA: %x does not have a mapped physical page!\n", va); continue; }
else { w = ((*entry) & PTE_W) == PTE_W; u = ((*entry) & PTE_U) == PTE_U;
       cprintf("VA: 0x%x, PA: 0x%x, pp_ref: %d, PTE_W: %d, PTE_U: %d\n", ...); }
```

Exactly one line is printed per visited address.  The `*entry` used for the
permission bits is the PTE the `page_lookup` collaborator stored through
`&entry`. -/
def reportEv (pt : PTState) (va : Nat) : OutEv :=
  match pt.walkEntry va with
  | none => .vaUnmapped va
  | some _ =>
    match pt.lookup va with
    | none => .vaUnmapped va
    | some (pg, pte) =>
      .vaMapped va pg.pa pg.ppRef
        (if pte &&& PTE_W = PTE_W then 1 else 0)
        (if pte &&& PTE_U = PTE_U then 1 else 0)

/-- The page-table queries the loop body issues at one address: always the
`pgdir_walk` with `create = 0`; the `page_lookup` only when the walk found an
entry (otherwise the body `continue`s first). -/
def queriesAt (pt : PTState) (va : Nat) : List Query :=
  match pt.walkEntry va with
  | none => [.walk va false]
  | some _ => [.walk va false, .lookup va]

/-- The range walk of `mon_showva2pa`:

```
for (va = va_low; va <= va_high; va += 1024) { ...loop body... }
```

`va` has type `uintptr_t *`, so the increment `va += 1024` is pointer
arithmetic and advances the address by `1024 * sizeof(uintptr_t)` = 4096
bytes per iteration (i386).  Returns the printed lines and the page-table
queries, in order.  Structural recursion on fuel (one unit per iteration);
the wrapper `vaWalk` supplies exactly the iteration count of the loop. -/
def vaWalkF (pt : PTState) (hi : Nat) : Nat → Nat → List OutEv × List Query
  | 0, _ => ([], [])
  | fuel + 1, va =>
    if va ≤ hi then
      let rest := vaWalkF pt hi fuel (va + 4096)
      (reportEv pt va :: rest.1, queriesAt pt va ++ rest.2)
    else ([], [])

/-- The range walk from `va` to `hi` inclusive, stride 4096 bytes. -/
def vaWalk (pt : PTState) (hi va : Nat) : List OutEv × List Query :=
  vaWalkF pt hi ((hi - va) / 4096 + 1) va

/-- Result of one `mon_showva2pa` invocation: printed lines, page-table
queries issued, and the handler's return value (`0` on every path — decoded
as `Continue` at the dispatch boundary). -/
structure VaRes where
  out : List OutEv
  queries : List Query
  ret : Int
deriving DecidableEq

/-- Handler `mon_showva2pa(argc, argv, tf)` (`kern/monitor.c`).  `argv` is the full
token list, `argv[0]` being the command name, so `argc = argv.length`:

* `argc == 1` → `cprintf("At least one argument.\n"); return 0;`
* `argc >= 4` → `cprintf("Too many arguments (max %d)\n", 2); return 0;`
* `argc == 2` → `va_low` and `va_high` are both `strtol(argv[1], &ptr, 16)`
  (the single argument is parsed twice — degenerate range);
* `argc == 3` → `va_low = strtol(argv[1])`, `va_high = strtol(argv[2])`, and
  if `va_low > va_high` both are re-parsed with the argument roles swapped;
* then the range walk runs.  With `argc == 0` (unreachable from `runcmd`,
  which dispatches only on a non-empty token list) no branch assigns the
  bounds, so both keep their `NULL` initialisation and the loop walks `[0,0]`. -/
def mon_showva2pa (pt : PTState) (argv : List (List Char)) : VaRes :=
  let argc := argv.length
  if argc = 1 then ⟨[.atLeastOne], [], 0⟩
  else if 4 ≤ argc then ⟨[.tooManyVa], [], 0⟩
  else if argc = 2 then
    let lo := parseAddr (argv.getD 1 [])
    let hi := parseAddr (argv.getD 1 [])
    let w := vaWalk pt hi lo
    ⟨w.1, w.2, 0⟩
  else if argc = 3 then
    let lo := parseAddr (argv.getD 1 [])
    let hi := parseAddr (argv.getD 2 [])
    if lo > hi then
      let lo2 := parseAddr (argv.getD 2 [])
      let hi2 := parseAddr (argv.getD 1 [])
      let w := vaWalk pt hi2 lo2
      ⟨w.1, w.2, 0⟩
    else
      let w := vaWalk pt hi lo
      ⟨w.1, w.2, 0⟩
  else
    let w := vaWalk pt 0 0
    ⟨w.1, w.2, 0⟩

/-- One stack frame as `mon_backtrace` reads and prints it: the frame pointer,
the return address `*(ebp + 1)`, and the five words `*(ebp + 2) .. *(ebp + 6)`
shown as the candidate argument snapshot. -/
structure Frame where
  ebp : Nat
  eip : Nat
  args : List Nat
deriving DecidableEq

/-- The frame record read at `ebp` (word reads at byte offsets 4, 8, ..., 24). -/
def frameAt (mem : Nat → Nat) (ebp : Nat) : Frame :=
  ⟨ebp, mem (ebp + 4),
   [mem (ebp + 8), mem (ebp + 12), mem (ebp + 16), mem (ebp + 20), mem (ebp + 24)]⟩

/-- The frame-pointer walk of `mon_backtrace`:

```
while (ebp != 0) {
  ...read and print the frame at ebp...
  ebp = (uint32_t *)(*ebp);
}
```

The source loop has no iteration bound of its own; the fuel parameter is the
embedding's step counter.  Result: the frames visited (most-recent-first) and
`true` when the loop exited by reaching the zero sentinel within the given
number of steps (i.e. the C loop terminated), `false` when the step budget ran
out with `ebp` still nonzero (the C loop is still running). -/
def backtraceWalk (mem : Nat → Nat) : Nat → Nat → List Frame × Bool
  | ebp, 0 => ([], ebp == 0)
  | ebp, fuel + 1 =>
    if ebp = 0 then ([], true)
    else
      let rest := backtraceWalk mem (mem ebp) fuel
      (frameAt mem ebp :: rest.1, rest.2)

/-- Modelled from the spec: the `SymbolInfo` record of the symbol-resolution
collaborator (`debuginfo_eip` / `struct Eipdebuginfo`, `kern/kdebug.c`, not
among the sources under verification): source file, line number, function name
with its significant length, and the address of the start of the function. -/
structure DbgInfo where
  eipFile : String
  eipLine : Nat
  eipFnName : String
  eipFnNamelen : Nat
  eipFnAddr : Nat
deriving DecidableEq

/-- Collaborators and machine context a monitor session runs against:
page-table state, the raw memory-read capability, the current frame pointer
(`read_ebp()`), the symbol resolver, the five link-time symbols `mon_kerninfo`
prints, and the step budget used to run the (unbounded) backtrace loop. -/
structure Env where
  pt : PTState
  mem : Nat → Nat
  ebp : Nat
  dbg : Nat → DbgInfo
  sstart : Nat
  entry : Nat
  etext : Nat
  edata : Nat
  send : Nat
  btFuel : Nat

/-- Result of one command handler: printed lines and the raw `int` return
value.  A negative return value forces the monitor to exit (decoded as
`Terminate` at the dispatch boundary); every handler of this monitor returns
`0` on every path. -/
structure HRes where
  out : List OutEv
  ret : Int
deriving DecidableEq

/-- The two-line rendering `mon_backtrace` performs per frame:
`cprintf("ebp %08x eip %08x args ...")` followed by
`cprintf("%s:%d", eip_file, eip_line)` and
`cprintf(": %.*s+%d\n", eip_fn_namelen, eip_fn_name, eip_fn_addr)`.
Note the value printed after the `+` is `eip_fn_addr` itself — the address of
the start of the function — not `eip - eip_fn_addr`. -/
def btFrameOut (dbg : Nat → DbgInfo) (f : Frame) : List OutEv :=
  let info := dbg f.eip
  [.btFrame f.ebp f.eip f.args,
   .btSym info.eipFile info.eipLine info.eipFnNamelen info.eipFnName info.eipFnAddr]

/-- Handler `mon_backtrace`: walk the frame chain from `read_ebp()` and print
two lines per frame; returns `0`. -/
def mon_backtrace (env : Env) : HRes :=
  let frames := (backtraceWalk env.mem env.ebp env.btFuel).1
  ⟨(frames.map (btFrameOut env.dbg)).flatten, 0⟩

/-- The name/description rows of the command table
(`static struct Command commands[]`), in registration order. -/
def commandSpecs : List (List Char × String) :=
  [("help".toList, "Display this list of commands"),
   ("kerninfo".toList, "Display information about the kernel"),
   ("backtrace".toList, "Display information about the kernel"),
   ("showva2pa".toList,
    "Display the physical pages information corresponding to the designated virtual addresses")]

/-- Handler `mon_help`: one line per registered command, in table order;
returns `0`. -/
def mon_help (_env : Env) (_argv : List (List Char)) : HRes :=
  ⟨commandSpecs.map fun p => .helpLine p.1 p.2, 0⟩

/-- Handler `mon_kerninfo`: prints the fixed block of kernel memory-layout
lines, whose contents are functions of the five link-time symbols; returns
`0`. -/
def mon_kerninfo (env : Env) (_argv : List (List Char)) : HRes :=
  ⟨[.kerninfoReport env.sstart env.entry env.etext env.edata env.send], 0⟩

/-- One registered command: name, description, handler.  The table is a fixed
immutable value; identity is the name. -/
structure Command where
  name : List Char
  desc : String
  func : Env → List (List Char) → HRes

/-- The command table `commands[]`, in registration order. -/
def commands : List Command :=
  [⟨"help".toList, "Display this list of commands", mon_help⟩,
   ⟨"kerninfo".toList, "Display information about the kernel", mon_kerninfo⟩,
   ⟨"backtrace".toList, "Display information about the kernel",
    fun env _argv => mon_backtrace env⟩,
   ⟨"showva2pa".toList,
    "Display the physical pages information corresponding to the designated virtual addresses",
    fun env argv => let r := mon_showva2pa env.pt argv; ⟨r.out, r.ret⟩⟩]

/-- Outcome of `runcmd` on one line, one constructor per return path:
* `tooMany` — tokenization hit the capacity check; `runcmd` printed
  `"Too many arguments (max 16)"` and returned `0` with no dispatch;
* `empty` — zero tokens; `runcmd` returned `0` with no dispatch and no error;
* `unknown name` — no table entry matched `argv[0]`; `runcmd` printed
  `"Unknown command '<name>'"` and returned `0`;
* `dispatched name res` — the first table entry whose name equals `argv[0]`
  was invoked with the full argument list; `runcmd` returns its result. -/
inductive RunOutcome where
  | tooMany
  | empty
  | unknown (name : List Char)
  | dispatched (name : List Char) (res : HRes)
deriving DecidableEq

/-- The `runcmd` function: tokenize the line (aborting on over-capacity), do
nothing on an empty token list, otherwise linear case-sensitive lookup of
`argv[0]` in the command table (`strcmp == 0`, first match) and invocation of
the handler. -/
def runcmd (env : Env) (buf : List Char) : RunOutcome :=
  match runTok buf with
  | .error _ => .tooMany
  | .ok argv =>
    match argv with
    | [] => .empty
    | name :: _ =>
      match commands.find? fun c => c.name = name with
      | some c => .dispatched name (c.func env argv)
      | none => .unknown name

/-- The raw `int` value `runcmd` returns for an outcome: the handler's return
value when dispatched, `0` on every other path. -/
def retOf : RunOutcome → Int
  | .dispatched _ res => res.ret
  | _ => 0

/-- States of the monitor loop. -/
inductive MonState where
  | Running
  | Terminated
deriving DecidableEq

/-- One iteration of the `monitor` loop:

```
while (1) {
  buf = readline("K> ");
  if (buf != NULL)
    if (runcmd(buf, tf) < 0)
      break;
}
```

`readLine` yielding `none` (a null read) is simply ignored and the loop
retries; otherwise the line is run and the loop exits exactly when `runcmd`
returns a negative value. -/
def monitorStep (env : Env) (readResult : Option (List Char)) : MonState :=
  match readResult with
  | none => .Running
  | some buf => if retOf (runcmd env buf) < 0 then .Terminated else .Running

/-- The `ExitSignal` decoding of a raw handler return value at the dispatch
boundary: any negative result maps to `Terminate`, everything else continues. -/
inductive ExitSignal where
  | Continue
  | Terminate
deriving DecidableEq

/-- Decode a raw `int` handler result as an `ExitSignal`. -/
def exitSignalOf (r : Int) : ExitSignal :=
  if r < 0 then .Terminate else .Continue

/-- Predicate: `runcmd` got past tokenization and the empty-line check and
performed the command lookup — either a handler was invoked or
`Unknown command` was reported. -/
def dispatchAttempted : RunOutcome → Bool
  | .unknown _ => true
  | .dispatched _ _ => true
  | _ => false

/-- Concrete fixture: a page table with no entry and no owning page anywhere. -/
def pt0 : PTState := ⟨fun _ => none, fun _ => none⟩

/-- Concrete fixture: an environment with the empty page table, all-zero
memory (the frame chain ends at once), and an unknown-symbol resolver. -/
def env0 : Env :=
  ⟨pt0, fun _ => 0, 0, fun _ => ⟨"", 0, "", 0, 0⟩, 0, 0, 0, 0, 0, 0⟩

/-- Concrete fixture: a two-frame chain, `20 ↦ 8 ↦ 0`; other words are
arbitrary nonzero values so only those two links matter. -/
def memChain2 : Nat → Nat :=
  fun a => if a = 20 then 8 else if a = 8 then 0 else a + 1

/-- Concrete fixture: a self-referential frame-pointer chain — every memory
word holds `4`, so from `ebp = 4` the saved previous frame pointer is again
`4` and the sentinel `0` is never reached. -/
def memLoop : Nat → Nat := fun _ => 4

/-- Concrete fixture: memory holding one stack frame at `ebp = 8` whose return
address (word at byte address 12) is `100`; the saved previous frame pointer
(word at 8) is `0`. -/
def memC2 : Nat → Nat := fun a => if a = 12 then 100 else 0

/-- Concrete fixture: a resolved symbol whose function starts at address `64`. -/
def dbgC2 : DbgInfo := ⟨"kern/init.c", 3, "test_backtrace", 14, 64⟩

/-- Concrete fixture: environment for the backtrace-rendering check — one
frame at `ebp = 8`, return address `100`, resolving to `dbgC2`. -/
def envC2 : Env :=
  ⟨pt0, memC2, 8, fun _ => dbgC2, 0, 0, 0, 0, 0, 3⟩

/-! ### Tokenizer lemmas -/

theorem length_dropWhile_le (p : Char → Bool) (l : List Char) :
    (l.dropWhile p).length ≤ l.length := by
  induction l with
  | nil => simp
  | cons c t ih =>
    by_cases h : p c
    · simpa [List.dropWhile, h] using Nat.le_succ_of_le ih
    · simp [List.dropWhile, h]

theorem dropWhile_head_false (p : Char → Bool) :
    ∀ (l : List Char) (c : Char) (t : List Char), l.dropWhile p = c :: t → p c = false := by
  intro l
  induction l with
  | nil => intro c t h; simp [List.dropWhile] at h
  | cons a l ih =>
    intro c t h
    by_cases ha : p a
    · rw [List.dropWhile_cons_of_pos ha] at h
      exact ih c t h
    · rw [List.dropWhile_cons_of_neg ha] at h
      cases h
      simpa using ha

/-- After a nonempty whitespace gobble result, scanning past the token leaves a
strictly shorter remainder: the source tokenizer loop makes progress. -/
theorem tok_rest_lt (l : List Char) (c : Char) (t : List Char)
    (h : l.dropWhile isWS = c :: t) :
    ((c :: t).dropWhile fun x => !isWS x).length < l.length := by
  have hc : isWS c = false := dropWhile_head_false isWS l c t h
  have h1 : ((c :: t).dropWhile fun x => !isWS x) = t.dropWhile fun x => !isWS x := by
    rw [List.dropWhile_cons_of_pos]
    simp [hc]
  have h2 : (t.dropWhile fun x => !isWS x).length ≤ t.length :=
    length_dropWhile_le _ t
  have h1' : ((c :: t).dropWhile fun x => !isWS x).length
      = (t.dropWhile fun x => !isWS x).length := by rw [h1]
  have h3 : (c :: t).length ≤ l.length := by
    rw [← h]; exact length_dropWhile_le _ l
  simp only [List.length_cons] at h3
  omega

/-- The tokenizer of `runcmd` agrees with the unbounded reference splitter:
with fewer than `16 - argc` tokens remaining it succeeds with exactly the
splitter's tokens; with more it aborts with `TooManyArguments`. -/
theorem tokF_spec :
    ∀ (fuel : Nat) (l : List Char) (argc : Nat), l.length < fuel →
      (argc + (wsplitF fuel l).length ≤ 15 →
        runTokF fuel l argc = .ok (wsplitF fuel l)) ∧
      (argc ≤ 15 → 15 < argc + (wsplitF fuel l).length →
        runTokF fuel l argc = .error .tooManyArguments) := by
  intro fuel
  induction fuel with
  | zero => intro l argc h; exact absurd h (Nat.not_lt_zero _)
  | succ fuel ih =>
    intro l argc h
    cases hd : l.dropWhile isWS with
    | nil =>
      constructor
      · intro _; simp [wsplitF, runTokF, hd]
      · intro h15 hgt
        simp only [wsplitF, hd, List.length_nil] at hgt
        omega
    | cons c t =>
      have hrest : ((c :: t).dropWhile fun x => !isWS x).length < fuel :=
        Nat.lt_of_lt_of_le (tok_rest_lt l c t hd) (Nat.lt_succ_iff.mp h)
      obtain ⟨ih1, ih2⟩ := ih ((c :: t).dropWhile fun x => !isWS x) (argc + 1) hrest
      by_cases h15 : argc = 15
      · constructor
        · intro hle
          simp only [wsplitF, hd, List.length_cons] at hle
          omega
        · intro _ _
          simp [runTokF, hd, h15]
      · constructor
        · intro hle
          simp only [wsplitF, hd, List.length_cons] at hle
          have := ih1 (by omega)
          simp [runTokF, wsplitF, hd, h15, this]
        · intro hle hgt
          simp only [wsplitF, hd, List.length_cons] at hgt
          have := ih2 (by omega) (by omega)
          simp [runTokF, hd, h15, this]

/-- Tokens produced by the reference splitter are non-empty and contain no
whitespace character. -/
theorem wsplitF_wf :
    ∀ (fuel : Nat) (l : List Char), ∀ tk ∈ wsplitF fuel l,
      tk ≠ [] ∧ ∀ c ∈ tk, isWS c = false := by
  intro fuel
  induction fuel with
  | zero => intro l tk htk; simp [wsplitF] at htk
  | succ fuel ih =>
    intro l tk htk
    cases hd : l.dropWhile isWS with
    | nil => simp [wsplitF, hd] at htk
    | cons c t =>
      simp only [wsplitF, hd, List.mem_cons] at htk
      rcases htk with htk | htk
      · subst htk
        have hc : isWS c = false := dropWhile_head_false isWS l c t hd
        constructor
        · rw [List.takeWhile_cons_of_pos (by simp [hc])]
          simp
        · intro x hx
          have := List.mem_takeWhile_imp hx
          simpa using this
      · exact ih _ tk htk

/-! ### Range-walk lemmas -/

theorem vaWalkF_stop (pt : PTState) (hi fuel va : Nat) (h : ¬ va ≤ hi) :
    vaWalkF pt hi fuel va = ([], []) := by
  cases fuel with
  | zero => rfl
  | succ f => simp [vaWalkF, h]

/-- Output of the range walk under sufficient fuel: one report line per
visited address, the addresses being `va, va + 4096, ...` up to `hi`. -/
theorem vaWalkF_out (pt : PTState) (hi : Nat) :
    ∀ (fuel va : Nat), va ≤ hi → (hi - va) / 4096 < fuel →
      (vaWalkF pt hi fuel va).1 =
        (List.range ((hi - va) / 4096 + 1)).map fun k => reportEv pt (va + 4096 * k) := by
  intro fuel
  induction fuel with
  | zero => intro va h1 h2; exact absurd h2 (Nat.not_lt_zero _)
  | succ fuel ih =>
    intro va h1 h2
    by_cases h3 : va + 4096 ≤ hi
    · have hdiv : (hi - va) / 4096 = (hi - (va + 4096)) / 4096 + 1 := by
        have e : hi - va = (hi - (va + 4096)) + 4096 := by omega
        rw [e]; exact Nat.add_div_right _ (by norm_num)
      have ihh := ih (va + 4096) h3 (by omega)
      simp only [vaWalkF, if_pos h1]
      rw [ihh, hdiv]
      conv_rhs => rw [List.range_succ_eq_map]
      simp only [List.map_cons, List.map_map, List.cons.injEq]
      refine ⟨by norm_num, List.map_congr_left ?_⟩
      intro k hk
      simp only [Function.comp_apply]
      congr 1
      omega
    · have hz : (hi - va) / 4096 = 0 := Nat.div_eq_of_lt (by omega)
      simp only [vaWalkF, if_pos h1, vaWalkF_stop pt hi fuel (va + 4096) h3]
      rw [hz]
      simp [List.range_succ]

/-- Every query the range walk issues is a `create = false` page-table walk or
a page lookup. -/
theorem vaWalkF_query_shape (pt : PTState) (hi : Nat) :
    ∀ (fuel va : Nat) (q : Query), q ∈ (vaWalkF pt hi fuel va).2 →
      (∃ a, q = Query.walk a false) ∨ ∃ a, q = Query.lookup a := by
  intro fuel
  induction fuel with
  | zero => intro va q hq; simp [vaWalkF] at hq
  | succ fuel ih =>
    intro va q hq
    by_cases h : va ≤ hi
    · simp only [vaWalkF, if_pos h] at hq
      rcases List.mem_append.mp hq with hq | hq
      · unfold queriesAt at hq
        cases hw : pt.walkEntry va <;> rw [hw] at hq <;> simp at hq
        · exact Or.inl ⟨va, hq⟩
        · rcases hq with hq | hq
          · exact Or.inl ⟨va, hq⟩
          · exact Or.inr ⟨va, hq⟩
      · exact ih _ q hq
    · simp [vaWalkF_stop pt hi (fuel + 1) va h] at hq

/-- Every query any `mon_showva2pa` invocation issues is a `create = false`
page-table walk or a page lookup. -/
theorem mon_showva2pa_query_shape (pt : PTState) (argv : List (List Char)) :
    ∀ q ∈ (mon_showva2pa pt argv).queries,
      (∃ a, q = Query.walk a false) ∨ ∃ a, q = Query.lookup a := by
  intro q hq
  by_cases h1 : argv.length = 1
  · simp [mon_showva2pa, h1] at hq
  · by_cases h2 : 4 ≤ argv.length
    · simp [mon_showva2pa, h1, h2] at hq
    · by_cases h3 : argv.length = 2
      · simp only [mon_showva2pa, h1, h2, h3, if_true, if_false, vaWalk] at hq
        exact vaWalkF_query_shape pt _ _ _ q hq
      · by_cases h4 : argv.length = 3
        · simp only [mon_showva2pa, h1, h2, h3, h4, if_true, if_false, vaWalk] at hq
          by_cases h5 : parseAddr (argv.getD 1 []) > parseAddr (argv.getD 2 [])
          · rw [if_pos h5] at hq
            exact vaWalkF_query_shape pt _ _ _ q hq
          · rw [if_neg h5] at hq
            exact vaWalkF_query_shape pt _ _ _ q hq
        · simp only [mon_showva2pa, h1, h2, h3, h4, if_true, if_false, vaWalk] at hq
          exact vaWalkF_query_shape pt _ _ _ q hq

/-! ### Claim theorems -/

/-- C5: for every input line with N whitespace-separated non-empty tokens,
if N ≤ 15 the tokenizer yields exactly those N argument slices in their
original order and (for a non-empty line) dispatch proceeds; if N = 16 a
`TooManyArguments` error is reported and no dispatch occurs for that line. -/
theorem tokenizer_capacity_spec (env : Env) (buf : List Char) :
    (∀ tk ∈ wsplit buf, tk ≠ [] ∧ ∀ c ∈ tk, isWS c = false) ∧
    ((wsplit buf).length ≤ 15 →
      runTok buf = .ok (wsplit buf) ∧
      (wsplit buf ≠ [] → dispatchAttempted (runcmd env buf) = true)) ∧
    ((wsplit buf).length = 16 →
      runTok buf = .error .tooManyArguments ∧ runcmd env buf = .tooMany) := by
  refine ⟨wsplitF_wf _ buf, ?_, ?_⟩
  · intro hle
    have h1 : runTok buf = .ok (wsplit buf) :=
      (tokF_spec (buf.length + 1) buf 0 (Nat.lt_succ_self _)).1
        (by simpa [wsplit] using hle)
    refine ⟨h1, ?_⟩
    intro hne
    unfold runcmd
    rw [h1]
    cases hw : wsplit buf with
    | nil => exact absurd hw hne
    | cons name rest =>
      cases hf : commands.find? fun c => c.name = name <;> simp [dispatchAttempted, hf]
  · intro h16
    have hgt : 15 < 0 + (wsplitF (buf.length + 1) buf).length := by
      simp only [wsplit] at h16
      omega
    have h2 : runTok buf = .error .tooManyArguments :=
      (tokF_spec (buf.length + 1) buf 0 (Nat.lt_succ_self _)).2 (by omega) hgt
    refine ⟨h2, ?_⟩
    unfold runcmd
    rw [h2]

/-- Witness for C5: a two-token line tokenizes to its two slices and reaches
dispatch; a sixteen-token line is rejected with no dispatch. -/
theorem tokenizer_capacity_spec_witness :
    runTok ("help x".toList) = .ok [['h', 'e', 'l', 'p'], ['x']] ∧
    dispatchAttempted (runcmd env0 ("help x".toList)) = true ∧
    runcmd env0 ("a b c d e f g h i j k l m n o p".toList) = .tooMany := by
  have h1 := (tokenizer_capacity_spec env0 ("help x".toList)).2.1 (by decide)
  have h2 :=
    (tokenizer_capacity_spec env0 ("a b c d e f g h i j k l m n o p".toList)).2.2 (by decide)
  exact ⟨h1.1.trans (by rfl), h1.2 (by decide), h2.2⟩

/-- C1 counterexample: with the normalized range `[0, 0x800]` the claim
predicts visits at 0, 1024 and 2048 (strides of exactly 1024 bytes, including
the high bound), i.e. three report lines.  The code emits a single report
line, for address 0 only, and issues no query at 1024 or 2048: the loop's
`va += 1024` on a `uintptr_t *` advances 4096 bytes. -/
theorem showva2pa_stride_claim_counterexample :
    (vaWalk pt0 2048 0).1 = [OutEv.vaUnmapped 0] ∧
    (vaWalk pt0 2048 0).2 = [Query.walk 0 false] ∧
    (vaWalk pt0 2048 0).1.length ≠ 3 := by
  decide

/-- C1 (amended): for every normalized range `[lo, hi]` the walk visits
addresses in fixed strides of 4096 bytes (the `va += 1024` increment acts on a
`uintptr_t *`) starting at `lo` and proceeding upward, producing exactly one
report line per visited address `lo + 4096·k ≤ hi`; `hi` itself is visited
exactly when `hi - lo` is a multiple of 4096. -/
theorem showva2pa_walk_stride_4096 (pt : PTState) (lo hi : Nat) (h : lo ≤ hi) :
    (vaWalk pt hi lo).1 =
      ((List.range ((hi - lo) / 4096 + 1)).map fun k => reportEv pt (lo + 4096 * k)) ∧
    ((hi ∈ (List.range ((hi - lo) / 4096 + 1)).map fun k => lo + 4096 * k) ↔
      (hi - lo) % 4096 = 0) := by
  constructor
  · exact vaWalkF_out pt hi ((hi - lo) / 4096 + 1) lo h (Nat.lt_succ_self _)
  · simp only [List.mem_map, List.mem_range]
    constructor
    · rintro ⟨k, hk, he⟩
      omega
    · intro hm
      exact ⟨(hi - lo) / 4096, by omega, by omega⟩

/-- Witness for C1 (amended): the range `[0, 0x2000]` is walked at 0, 4096 and
8192, one report line each, and the high bound (a 4096 multiple away) is
visited. -/
theorem showva2pa_walk_stride_4096_witness :
    (vaWalk pt0 8192 0).1 =
      [OutEv.vaUnmapped 0, OutEv.vaUnmapped 4096, OutEv.vaUnmapped 8192] ∧
    (8192 ∈ (List.range ((8192 - 0) / 4096 + 1)).map fun k => 0 + 4096 * k) := by
  have h := showva2pa_walk_stride_4096 pt0 0 8192 (by decide)
  exact ⟨h.1.trans (by decide), h.2.mpr (by decide)⟩

/-- C4: `showva2pa` invoked with two address tokens produces identical output
(lines, queries and return value) regardless of the order of the two tokens:
the range is normalized to `[min, max]` before the walk. -/
theorem showva2pa_order_independent (pt : PTState) (a0 s t : List Char) :
    mon_showva2pa pt [a0, s, t] = mon_showva2pa pt [a0, t, s] := by
  simp only [mon_showva2pa, List.length_cons, List.length_nil,
    List.getD_cons_succ, List.getD_cons_zero]
  norm_num
  rcases Nat.lt_trichotomy (parseAddr s) (parseAddr t) with hlt | heq | hgt
  · rw [if_neg (by omega), if_pos (by omega)]
  · rw [heq]
  · rw [if_pos (by omega), if_neg (by omega)]

/-- C6: `showva2pa` invoked with zero address tokens reports its
too-few-arguments diagnostic (`cprintf("At least one argument.\n")`) and with
three or more address tokens its too-many diagnostic
(`cprintf("Too many arguments (max %d)\n", 2)`); in both cases it issues no
page-table query and returns `0`, decoded as `Continue`. -/
theorem showva2pa_arity_errors (pt : PTState) (argv : List (List Char)) :
    (argv.length = 1 →
      mon_showva2pa pt argv = ⟨[OutEv.atLeastOne], [], 0⟩ ∧
      exitSignalOf (mon_showva2pa pt argv).ret = ExitSignal.Continue) ∧
    (4 ≤ argv.length →
      mon_showva2pa pt argv = ⟨[OutEv.tooManyVa], [], 0⟩ ∧
      exitSignalOf (mon_showva2pa pt argv).ret = ExitSignal.Continue) := by
  constructor
  · intro h
    have he : mon_showva2pa pt argv = ⟨[OutEv.atLeastOne], [], 0⟩ := by
      simp [mon_showva2pa, h]
    exact ⟨he, by rw [he]; rfl⟩
  · intro h
    have h1 : ¬ argv.length = 1 := by omega
    have he : mon_showva2pa pt argv = ⟨[OutEv.tooManyVa], [], 0⟩ := by
      simp [mon_showva2pa, h1, h]
    exact ⟨he, by rw [he]; rfl⟩

/-- Witness for C6 at a bare `showva2pa` invocation and at one with three
address tokens. -/
theorem showva2pa_arity_errors_witness :
    mon_showva2pa pt0 [['s']] = ⟨[OutEv.atLeastOne], [], 0⟩ ∧
    mon_showva2pa pt0 [['s'], ['1'], ['2'], ['3']] = ⟨[OutEv.tooManyVa], [], 0⟩ :=
  ⟨((showva2pa_arity_errors pt0 [['s']]).1 (by decide)).1,
   ((showva2pa_arity_errors pt0 [['s'], ['1'], ['2'], ['3']]).2 (by decide)).1⟩

/-- C10: a single address token with no parsable hexadecimal numeral is not
rejected: `strtol` yields `0`, no diagnostic is printed, and the inspector
walks and reports the degenerate range `[0, 0]`. -/
theorem showva2pa_unparsable_token (pt : PTState) (a0 t : List Char)
    (h : hexDigitsOf t = []) :
    parseAddr t = 0 ∧
    mon_showva2pa pt [a0, t] = ⟨[reportEv pt 0], queriesAt pt 0, 0⟩ ∧
    reportEv pt 0 ≠ OutEv.atLeastOne ∧ reportEv pt 0 ≠ OutEv.tooManyVa := by
  have hp : parseAddr t = 0 := by
    unfold parseAddr
    rw [h]
    simp [hexVal]
  refine ⟨hp, ?_, ?_, ?_⟩
  · simp only [mon_showva2pa, List.length_cons, List.length_nil,
      List.getD_cons_succ, List.getD_cons_zero]
    norm_num [hp]
    simp [show vaWalk pt 0 0 = ([reportEv pt 0], queriesAt pt 0 ++ []) from rfl]
  · rcases hw : pt.walkEntry 0 with _ | e <;>
      rcases hl : pt.lookup 0 with _ | ⟨pg, pte⟩ <;> simp [reportEv, hw, hl]
  · rcases hw : pt.walkEntry 0 with _ | e <;>
      rcases hl : pt.lookup 0 with _ | ⟨pg, pte⟩ <;> simp [reportEv, hw, hl]

/-- Witness for C10 at the unparsable token `zzz`: value 0, one report line
for address 0, no diagnostic. -/
theorem showva2pa_unparsable_token_witness :
    parseAddr ("zzz".toList) = 0 ∧
    mon_showva2pa pt0 [['s'], "zzz".toList] =
      ⟨[OutEv.vaUnmapped 0], [Query.walk 0 false], 0⟩ := by
  have h := showva2pa_unparsable_token pt0 ['s'] ("zzz".toList) (by decide)
  exact ⟨h.1, h.2.1.trans (by decide)⟩

/-- C9: the address-range inspector never mutates the page table: every query
any `mon_showva2pa` invocation issues is either a page-table walk with the
`create` flag `false` or a read-only page lookup — no mutating operation
occurs on any path. -/
theorem showva2pa_no_table_mutation (pt : PTState) (argv : List (List Char)) :
    ∀ q ∈ (mon_showva2pa pt argv).queries,
      (∀ va c, q = Query.walk va c → c = false) ∧ mutatesTable q = false := by
  intro q hq
  rcases mon_showva2pa_query_shape pt argv q hq with ⟨a, rfl⟩ | ⟨a, rfl⟩
  · refine ⟨?_, rfl⟩
    intro va c hqe
    cases hqe
    rfl
  · refine ⟨?_, rfl⟩
    intro va c hqe
    exact absurd hqe (by simp)

/-- Witness for C9: the single query issued for the range `[0, 0]` is a
`create = false` walk and is non-mutating. -/
theorem showva2pa_no_table_mutation_witness :
    (∀ va c, Query.walk 0 false = Query.walk va c → c = false) ∧
    mutatesTable (Query.walk 0 false) = false :=
  showva2pa_no_table_mutation pt0 [['s'], ['0']] (Query.walk 0 false) (by decide)

/-- C7: for a frame-pointer chain of depth D whose D-th link is the zero
sentinel (all earlier links nonzero), the walker produces exactly D frames,
most-recent-first — the k-th record being the frame read at the k-th chain
address — and terminates by reaching the sentinel, given at least D steps. -/
theorem backtrace_chain_depth (mem : Nat → Nat) (ebp D fuel : Nat)
    (hchain : ∀ k < D, mem^[k] ebp ≠ 0) (hzero : mem^[D] ebp = 0)
    (hfuel : D ≤ fuel) :
    backtraceWalk mem ebp fuel =
      ((List.range D).map fun k => frameAt mem (mem^[k] ebp), true) := by
  induction D generalizing ebp fuel with
  | zero =>
    have h0 : ebp = 0 := by simpa using hzero
    subst h0
    cases fuel with
    | zero => simp [backtraceWalk]
    | succ f => simp [backtraceWalk]
  | succ D ih =>
    have h0 : ebp ≠ 0 := by simpa using hchain 0 (Nat.succ_pos D)
    cases fuel with
    | zero => omega
    | succ f =>
      have hch : ∀ k < D, mem^[k] (mem ebp) ≠ 0 := by
        intro k hk
        have hh := hchain (k + 1) (by omega)
        rwa [Function.iterate_succ_apply] at hh
      have hz : mem^[D] (mem ebp) = 0 := by
        rw [← Function.iterate_succ_apply]
        exact hzero
      have ihh := ih (mem ebp) f hch hz (by omega)
      simp only [backtraceWalk, if_neg h0]
      rw [ihh, List.range_succ_eq_map]
      simp only [List.map_cons, List.map_map, Function.iterate_zero_apply]
      have hmap : List.map (fun k => frameAt mem (mem^[k] (mem ebp))) (List.range D) =
          List.map ((fun k => frameAt mem (mem^[k] ebp)) ∘ Nat.succ) (List.range D) := by
        apply List.map_congr_left
        intro k hk
        simp [Function.iterate_succ_apply]
      rw [hmap]

/-- Witness for C7: the concrete two-link chain `20 ↦ 8 ↦ 0` yields exactly
two frames and terminates. -/
theorem backtrace_chain_depth_witness :
    backtraceWalk memChain2 20 5 =
      ((List.range 2).map fun k => frameAt memChain2 (memChain2^[k] 20), true) :=
  backtrace_chain_depth memChain2 20 2 5 (by decide) (by decide) (by decide)

/-- C3 (code bug): the source walk has no iteration cap.  On the
self-referential chain (`ebp = 4`, every word `4`) the walk never reaches the
sentinel, however many steps it is granted, and keeps emitting one frame per
step: it is not iteration-bounded. -/
theorem backtrace_cyclic_chain_unbounded (fuel : Nat) :
    (backtraceWalk memLoop 4 fuel).2 = false ∧
    (backtraceWalk memLoop 4 fuel).1.length = fuel := by
  induction fuel with
  | zero => exact ⟨rfl, rfl⟩
  | succ f ih =>
    have e : backtraceWalk memLoop 4 (f + 1) =
        (frameAt memLoop 4 :: (backtraceWalk memLoop 4 f).1,
         (backtraceWalk memLoop 4 f).2) := by
      simp [backtraceWalk, memLoop]
    rw [e]
    exact ⟨ih.1, by simp [ih.2]⟩

/-- C2 (code bug): for the frame whose return address is 100, resolved to a
symbol whose function starts at 64, the rendered symbol line carries `+64` —
the function start address `eip_fn_addr` itself — whereas
`returnAddress - functionStartAddress` is 36. -/
theorem backtrace_offset_is_fn_addr :
    (mon_backtrace envC2).out =
      [OutEv.btFrame 8 100 [0, 0, 0, 0, 0],
       OutEv.btSym "kern/init.c" 3 14 "test_backtrace" 64] ∧
    (100 : Nat) - 64 = 36 ∧ (64 : Nat) ≠ 36 := by
  refine ⟨?_, rfl, by decide⟩
  decide

/-- C8: one monitor-loop iteration leaves the `Running` state exactly when the
line was read successfully and its dispatched handler returned a negative
value; a null read and every error path (over-capacity line, empty line,
unknown command) keep the loop `Running`. -/
theorem monitor_terminates_only_on_negative (env : Env) (r : Option (List Char)) :
    (monitorStep env r = MonState.Terminated ↔
      ∃ buf name res, r = some buf ∧
        runcmd env buf = RunOutcome.dispatched name res ∧ res.ret < 0) ∧
    (∀ buf, r = some buf →
      (runcmd env buf = RunOutcome.tooMany ∨ runcmd env buf = RunOutcome.empty ∨
        ∃ name, runcmd env buf = RunOutcome.unknown name) →
      monitorStep env r = MonState.Running) := by
  constructor
  · constructor
    · intro hterm
      cases r with
      | none => simp [monitorStep] at hterm
      | some buf =>
        simp only [monitorStep] at hterm
        by_cases hneg : retOf (runcmd env buf) < 0
        · cases hrc : runcmd env buf with
          | dispatched name res =>
            refine ⟨buf, name, res, rfl, hrc, ?_⟩
            rw [hrc] at hneg
            simpa [retOf] using hneg
          | tooMany => rw [hrc] at hneg; simp [retOf] at hneg
          | empty => rw [hrc] at hneg; simp [retOf] at hneg
          | unknown n => rw [hrc] at hneg; simp [retOf] at hneg
        · rw [if_neg hneg] at hterm
          exact absurd hterm (by simp)
    · rintro ⟨buf, name, res, rfl, hrc, hneg⟩
      simp [monitorStep, hrc, retOf, hneg]
  · rintro buf rfl herr
    have h0 : retOf (runcmd env buf) = 0 := by
      rcases herr with h | h | ⟨n, h⟩ <;> simp [retOf, h]
    simp [monitorStep, h0]

/-- Witness for C8: an unknown command leaves the loop `Running`. -/
theorem monitor_terminates_only_on_negative_witness :
    monitorStep env0 (some ("frobnicate".toList)) = MonState.Running :=
  (monitor_terminates_only_on_negative env0 (some ("frobnicate".toList))).2
    ("frobnicate".toList) rfl
    (Or.inr (Or.inr ⟨"frobnicate".toList, by decide⟩))
